import Mathlib

/-!
# The client sample `src/yb/client/samples/sample.cc`

A shallow embedding of the sample program: `CreateSchema`, `DoesTableExist`,
`CreateTable`, `AlterTable`, `InsertRows` and `ScanRows`.

* The client library (`yb/client/*.h`, `yb/util/status.h`) is not among the sources.
  Its objects appear here as records of the answers they give (`KuduClient`,
  `KuduSession`, `KuduScanner`), over which the theorems quantify, or as small
  definitions marked `Modelled from the spec`.
* `int` and `int32_t` are 32-bit two's complement: values are `Int`, and every
  arithmetic result is reduced by `wrap32`.
* `YB_CHECK_OK` ends the process on a non-OK status (`Outcome.fatal`); an operation
  whose behaviour C++ leaves undefined is `Outcome.undefined`.
-/

namespace YB

/-! ## Statuses and outcomes -/

/-- Modelled from the spec: the error kinds of `yb::Status` (section 7); `yb/util/status.h`
is not among the sources. -/
inductive Code
  | NotFound
  | InvalidArgument
  | AlreadyExists
  | TimedOut
  | IOError
  | InvalidState
  deriving DecidableEq, Repr

/-- Modelled from the spec: `yb::Status`, either OK or an error kind with a message;
`yb/util/status.h` is not among the sources. -/
inductive Status
  | OK
  | Error (code : Code) (msg : String)
  deriving DecidableEq, Repr

namespace Status

/-- `Status::ok()`. -/
def ok : Status → Bool
  | OK => true
  | Error _ _ => false

/-- `Status::IsNotFound()`. -/
def IsNotFound : Status → Bool
  | Error Code.NotFound _ => true
  | _ => false

/-- `Status::IsIOError()`. -/
def IsIOError : Status → Bool
  | Error Code.IOError _ => true
  | _ => false

/-- `Status::IsInvalidArgument()`. -/
def IsInvalidArgument : Status → Bool
  | Error Code.InvalidArgument _ => true
  | _ => false

/-- `Status::IOError(msg)`. -/
def IOError (msg : String) : Status := Error Code.IOError msg

/-- `Status::InvalidArgument(msg)`. -/
def InvalidArgument (msg : String) : Status := Error Code.InvalidArgument msg

/-- `Status::NotFound(msg)`. -/
def NotFound (msg : String) : Status := Error Code.NotFound msg

end Status

/-- How a call of one of the sample's functions ends. -/
inductive Outcome (α : Type)
  /-- the function returns a value -/
  | ret (a : α)
  /-- a `YB_CHECK_OK` met a non-OK status: the process is aborted -/
  | fatal (s : Status)
  /-- an operation with undefined behaviour was evaluated -/
  | undefined
  /-- the iteration bound of the model was used up (a loop that has not ended) -/
  | diverge
  deriving DecidableEq, Repr

/-- A 32-bit two's complement `int`: the representative of `x` in `[-2^31, 2^31)`. -/
def wrap32 (x : Int) : Int := (x + 2147483648) % 4294967296 - 2147483648

/-! ## Schema and rows -/

/-- `KuduColumnSchema::DataType`, the three types the sample uses. -/
inductive DataType
  | INT32
  | STRING
  | BOOL
  deriving DecidableEq, Repr

/-- `KuduValue`: a typed value. -/
inductive KuduValue
  | int32 (v : Int)
  | str (s : String)
  | bool (b : Bool)
  deriving DecidableEq, Repr

/-- `KuduValue::FromInt`. -/
def KuduValue.FromInt (v : Int) : KuduValue := KuduValue.int32 v

/-- Modelled from the spec: a column definition (ColumnDef of section 3), which is what a
`KuduColumnSpec` of the schema builder describes; the builder is not among the sources.
A column is nullable until `NotNull` or `PrimaryKey` is called on it. -/
structure KuduColumnSchema where
  name : String
  type : DataType
  nullable : Bool
  isPrimaryKey : Bool
  defaultValue : Option KuduValue
  deriving DecidableEq, Repr

/-- `KuduSchema`: the ordered columns. -/
abbrev KuduSchema := List KuduColumnSchema

/-- `AddColumn(name)->Type(t)`: a new column specification. -/
def AddColumn (name : String) (t : DataType) : KuduColumnSchema :=
  { name := name, type := t, nullable := true, isPrimaryKey := false, defaultValue := none }

/-- `KuduColumnSpec::NotNull()`. -/
def KuduColumnSchema.NotNull (c : KuduColumnSchema) : KuduColumnSchema :=
  { c with nullable := false }

/-- `KuduColumnSpec::PrimaryKey()`: a key column is not nullable. -/
def KuduColumnSchema.PrimaryKey (c : KuduColumnSchema) : KuduColumnSchema :=
  { c with isPrimaryKey := true, nullable := false }

/-- `KuduColumnSpec::Default(value)`. -/
def KuduColumnSchema.Default (c : KuduColumnSchema) (v : KuduValue) : KuduColumnSchema :=
  { c with defaultValue := some v }

/-- Modelled from the spec: `KuduSchemaBuilder::Build`, which checks the invariants of
section 3 (unique names, the primary-key columns are a non-empty prefix and not nullable);
the builder is not among the sources. -/
def Build (cols : List KuduColumnSchema) : Status × KuduSchema :=
  if ¬ (cols.map (·.name)).Nodup then
    (Status.InvalidArgument "duplicate column name", [])
  else if (cols.takeWhile (·.isPrimaryKey)).isEmpty then
    (Status.InvalidArgument "no primary key", [])
  else if (cols.dropWhile (·.isPrimaryKey)).any (·.isPrimaryKey) then
    (Status.InvalidArgument "primary key columns must come first", [])
  else if cols.any (fun c => c.isPrimaryKey && c.nullable) then
    (Status.InvalidArgument "nullable primary key", [])
  else (Status.OK, cols)

/-- The columns added to the builder in `CreateSchema` (lines 65-69). -/
def CreateSchema.columns : List KuduColumnSchema :=
  [ ((AddColumn "key" DataType.INT32).NotNull).PrimaryKey,
    (AddColumn "int_val" DataType.INT32).NotNull,
    (AddColumn "string_val" DataType.STRING).NotNull,
    ((AddColumn "non_null_with_default" DataType.INT32).NotNull).Default
      (KuduValue.FromInt 12345) ]

/-- `CreateSchema` (lines 62-72). -/
def CreateSchema : Outcome KuduSchema :=
  match Build CreateSchema.columns with
  | (Status.OK, schema) => Outcome.ret schema
  | (s, _) => Outcome.fatal s

/-- `KuduPartialRow`: a row of a schema, each cell set or not. -/
structure KuduPartialRow where
  schema : KuduSchema
  cells : List (Option KuduValue)
  deriving DecidableEq, Repr

/-- `KuduSchema::NewRow()`: a row with no cell set. -/
def NewRow (schema : KuduSchema) : KuduPartialRow :=
  { schema := schema, cells := List.replicate schema.length none }

namespace KuduPartialRow

/-- Modelled from the spec: `KuduPartialRow::SetInt32(int col_idx, int32_t val)`, which
fails with InvalidArgument unless column `col_idx` exists and has type INT32 (section 4.1);
`yb/common/partial_row.h` is not among the sources. -/
def SetInt32 (row : KuduPartialRow) (col_idx : Nat) (val : Int) : Status × KuduPartialRow :=
  match row.schema.get? col_idx with
  | none => (Status.InvalidArgument "no such column index", row)
  | some c =>
    if c.type = DataType.INT32 then
      (Status.OK, { row with cells := row.cells.set col_idx (some (KuduValue.int32 val)) })
    else (Status.InvalidArgument "invalid type provided for column", row)

/-- Modelled from the spec: `KuduPartialRow::SetInt32(const Slice& col_name, int32_t val)`,
which fails with NotFound when the schema has no column of that name and otherwise behaves
as the indexed form; `yb/common/partial_row.h` is not among the sources. -/
def SetInt32ByName (row : KuduPartialRow) (col_name : String) (val : Int) :
    Status × KuduPartialRow :=
  match row.schema.findIdx? (fun c => c.name == col_name) with
  | none => (Status.NotFound "No such column", row)
  | some idx => row.SetInt32 idx val

/-- The value of the INT32 cell `col_idx`, when it is set. -/
def int32At (row : KuduPartialRow) (col_idx : Nat) : Option Int :=
  match row.cells.get? col_idx with
  | some (some (KuduValue.int32 v)) => some v
  | _ => none

end KuduPartialRow

/-! ## The client -/

/-- One operation of a `KuduTableAlterer`. -/
inductive AlterStep
  | RenameColumn (old new : String)
  | AddColumn (col : KuduColumnSchema)
  | DropColumn (name : String)
  deriving DecidableEq, Repr

/-- `KuduClient`, seen from the sample: the status each request is answered with. -/
structure KuduClient where
  OpenTable : String → Status
  Create : String → KuduSchema → List KuduPartialRow → Status
  Alter : String → List AlterStep → Status

/-- `DoesTableExist` (lines 74-86).  `exists_` is the content of `*exists` before the call
(`none`: never written); the second component is its content after the call. -/
def DoesTableExist (client : KuduClient) (table_name : String) (exists_ : Option Bool) :
    Status × Option Bool :=
  let s := client.OpenTable table_name
  if s.ok then (s, some true)
  else if s.IsNotFound then (Status.OK, some false)
  else (s, exists_)

/-- The loop of `CreateTable` (lines 95-99); `splits` is the vector built so far. -/
def CreateTable.loop (schema : KuduSchema) (num_tablets increment : Int) :
    Nat → Int → List KuduPartialRow → Outcome (List KuduPartialRow)
  | 0, i, splits => if i < num_tablets then Outcome.diverge else Outcome.ret splits
  | fuel + 1, i, splits =>
    if i < num_tablets then
      match (NewRow schema).SetInt32 0 (wrap32 (i * increment)) with
      | (Status.OK, row) => CreateTable.loop schema num_tablets increment fuel
          (wrap32 (i + 1)) (splits ++ [row])
      | (s, _) => Outcome.fatal s
    else Outcome.ret splits

/-- The split keys generated by `CreateTable` (lines 93-99).  `1000 / num_tablets` is the
truncating division of C++, undefined for a zero divisor. -/
def CreateTable.splits (schema : KuduSchema) (num_tablets : Int) :
    Outcome (List KuduPartialRow) :=
  if num_tablets = 0 then Outcome.undefined
  else
    let increment := wrap32 (Int.tdiv 1000 num_tablets)
    CreateTable.loop schema num_tablets increment (num_tablets - 1).toNat 1 []

/-- `CreateTable` (lines 88-109). -/
def CreateTable (client : KuduClient) (table_name : String) (schema : KuduSchema)
    (num_tablets : Int) : Outcome Status :=
  match CreateTable.splits schema num_tablets with
  | Outcome.ret splits => Outcome.ret (client.Create table_name schema splits)
  | Outcome.fatal s => Outcome.fatal s
  | Outcome.undefined => Outcome.undefined
  | Outcome.diverge => Outcome.diverge

/-- The schema `main` passes to `CreateTable`: the columns `CreateSchema` returns. -/
def sampleSchema : KuduSchema := CreateSchema.columns

/-- The primary keys (column 0) of a list of split rows. -/
def splitKeys (splits : List KuduPartialRow) : List Int :=
  splits.filterMap (fun row => row.int32At 0)

/-- The operations `AlterTable` puts on the table alterer (lines 114-116), in order. -/
def AlterTable.steps : List AlterStep :=
  [ AlterStep.RenameColumn "int_val" "integer_val",
    AlterStep.AddColumn (AddColumn "another_val" DataType.BOOL),
    AlterStep.DropColumn "string_val" ]

/-- `AlterTable` (lines 111-120). -/
def AlterTable (client : KuduClient) (table_name : String) : Status :=
  client.Alter table_name AlterTable.steps

/-- Modelled from the spec: the effect of one alter operation on a schema (section 4.2):
renaming or dropping a column that does not exist, adding an existing name and dropping a
primary-key column are invalid (`none`); the table alterer and the store are not among the
sources. -/
def applyAlterStep (schema : KuduSchema) : AlterStep → Option KuduSchema
  | AlterStep.RenameColumn old new =>
    if schema.any (fun c => c.name == old) then
      some (schema.map (fun c => if c.name == old then { c with name := new } else c))
    else none
  | AlterStep.AddColumn col =>
    if schema.any (fun c => c.name == col.name) then none else some (schema ++ [col])
  | AlterStep.DropColumn name =>
    match schema.find? (fun c => c.name == name) with
    | none => none
    | some c => if c.isPrimaryKey then none else some (schema.filter (fun c => c.name != name))

/-- Modelled from the spec: an alteration applies its operations in order, as a whole or not
at all (section 4.2). -/
def applyAlter : KuduSchema → List AlterStep → Option KuduSchema
  | schema, [] => some schema
  | schema, step :: steps =>
    match applyAlterStep schema step with
    | none => none
    | some schema1 => applyAlter schema1 steps

/-- The schema of the table once `AlterTable` has been applied to the schema of
`CreateSchema`. -/
def alteredSchema : KuduSchema := (applyAlter sampleSchema AlterTable.steps).getD sampleSchema

/-! ## Write session -/

/-- The calls `InsertRows` makes on its session. -/
inductive SessionCall
  | SetFlushMode
  | SetTimeoutMillis (ms : Int)
  | Apply (row : KuduPartialRow)
  | Flush
  | FlushAsync
  | GetPendingErrors
  | Close
  deriving DecidableEq, Repr

/-- `KuduSession`, seen from the sample: the answer to each call.  `GetPendingErrors` gives
the statuses of the retained errors and the overflow flag. -/
structure KuduSession where
  SetFlushMode : Status
  Apply : KuduPartialRow → Status
  Flush : Status
  GetPendingErrors : List Status × Bool
  Close : Status

/-- One row delivered by a scanner: the status of `GetInt32("key", &val)` and `val`. -/
abbrev RowResult := Status × Int

/-- One `NextBatch` call: its status and the rows it delivers. -/
abbrev BatchResult := Status × List RowResult

/-- `KuduPredicate::ComparisonOp`. -/
inductive ComparisonOp
  | LESS_EQUAL
  | GREATER_EQUAL
  | EQUAL
  deriving DecidableEq, Repr

/-- A comparison predicate, as built by `NewComparisonPredicate`. -/
structure KuduPredicate where
  column : String
  op : ComparisonOp
  value : KuduValue
  deriving DecidableEq, Repr

/-- `KuduScanner`, seen from the sample: the answer to each call; `batches preds` are the
successive `NextBatch` results of a scan opened with the conjunction `preds`, and
`HasMoreRows` holds as long as one of them is left. -/
structure KuduScanner where
  AddConjunctPredicate : KuduPredicate → Status
  Open : Status
  batches : List KuduPredicate → List BatchResult

/-- `KuduTable`, seen from the sample: the schema of the opened table, the session its
client creates and the scanner created on it. -/
structure KuduTable where
  schema : KuduSchema
  session : KuduSession
  scanner : KuduScanner

/-- The columns row `i` of `InsertRows` sets, with their values (lines 135-137). -/
def InsertRows.assignments (i : Int) : List (String × Int) :=
  [("key", i), ("integer_val", wrap32 (i * 2)), ("non_null_with_default", wrap32 (i * 5))]

/-- Successive `YB_CHECK_OK(row->SetInt32(name, value))`. -/
def setAll (row : KuduPartialRow) : List (String × Int) → Outcome KuduPartialRow
  | [] => Outcome.ret row
  | (name, val) :: rest =>
    match row.SetInt32ByName name val with
    | (Status.OK, row1) => setAll row1 rest
    | (s, _) => Outcome.fatal s

/-- The calls made on the session and how the function ended. -/
structure Run (α : Type) where
  calls : List SessionCall
  result : Outcome α

/-- The loop of `InsertRows` (lines 132-139); `calls` are the session calls made so far. -/
def InsertRows.loop (table : KuduTable) (num_rows : Int) :
    Nat → Int → List SessionCall → Run Unit
  | 0, i, calls =>
    if i < num_rows then { calls := calls, result := Outcome.diverge }
    else { calls := calls, result := Outcome.ret () }
  | fuel + 1, i, calls =>
    if i < num_rows then
      match setAll (NewRow table.schema) (InsertRows.assignments i) with
      | Outcome.ret row =>
        match table.session.Apply row with
        | Status.OK => InsertRows.loop table num_rows fuel (wrap32 (i + 1))
            (calls ++ [SessionCall.Apply row])
        | s => { calls := calls ++ [SessionCall.Apply row], result := Outcome.fatal s }
      | Outcome.fatal s => { calls := calls, result := Outcome.fatal s }
      | Outcome.undefined => { calls := calls, result := Outcome.undefined }
      | Outcome.diverge => { calls := calls, result := Outcome.diverge }
    else { calls := calls, result := Outcome.ret () }

/-- The status `InsertRows` forms from the pending errors (lines 153-154):
`errors.front()` of an empty vector is undefined. -/
def InsertRows.pendingStatus (errors : List Status) (overflow : Bool) : Outcome Status :=
  if overflow then Outcome.ret (Status.IOError "Overflowed pending errors in session")
  else
    match errors with
    | [] => Outcome.undefined
    | e :: _ => Outcome.ret e

/-- `InsertRows` (lines 127-163). -/
def InsertRows (table : KuduTable) (num_rows : Int) : Run Status :=
  let session := table.session
  match session.SetFlushMode with
  | Status.Error c m =>
    { calls := [SessionCall.SetFlushMode], result := Outcome.ret (Status.Error c m) }
  | Status.OK =>
    let r := InsertRows.loop table num_rows num_rows.toNat 0
      [SessionCall.SetFlushMode, SessionCall.SetTimeoutMillis 5000]
    match r.result with
    | Outcome.fatal s => { calls := r.calls, result := Outcome.fatal s }
    | Outcome.undefined => { calls := r.calls, result := Outcome.undefined }
    | Outcome.diverge => { calls := r.calls, result := Outcome.diverge }
    | Outcome.ret () =>
      let s := session.Flush
      if s.ok then { calls := r.calls ++ [SessionCall.Flush], result := Outcome.ret s }
      else
        let calls := r.calls ++
          [SessionCall.Flush, SessionCall.FlushAsync, SessionCall.GetPendingErrors]
        match InsertRows.pendingStatus session.GetPendingErrors.1 session.GetPendingErrors.2 with
        | Outcome.ret s1 =>
          if s1.ok then
            { calls := calls ++ [SessionCall.Close], result := Outcome.ret session.Close }
          else { calls := calls, result := Outcome.ret s1 }
        | Outcome.fatal s1 => { calls := calls, result := Outcome.fatal s1 }
        | Outcome.undefined => { calls := calls, result := Outcome.undefined }
        | Outcome.diverge => { calls := calls, result := Outcome.diverge }

/-! ## Scanner -/

/-- `kLowerBound` of `ScanRows`. -/
def kLowerBound : Int := 5

/-- `kUpperBound` of `ScanRows`. -/
def kUpperBound : Int := 600

/-- The predicate `key >= 5` of `ScanRows` (lines 171-173). -/
def ScanRows.lowerPredicate : KuduPredicate :=
  { column := "key", op := ComparisonOp.GREATER_EQUAL, value := KuduValue.FromInt kLowerBound }

/-- The predicate `key <= 600` of `ScanRows` (lines 176-178). -/
def ScanRows.upperPredicate : KuduPredicate :=
  { column := "key", op := ComparisonOp.LESS_EQUAL, value := KuduValue.FromInt kUpperBound }

/-- The conjunction the scanner holds when `ScanRows` opens it. -/
def ScanRows.predicates : List KuduPredicate :=
  [ScanRows.lowerPredicate, ScanRows.upperPredicate]

/-- The message of the error returned at a wrong key (lines 194-197). -/
def ScanRows.wrongKey (next_row val : Int) : Status :=
  Status.IOError ("Scan returned the wrong results. Expected key " ++ toString next_row ++
    " but got " ++ toString val)

/-- The message of the error returned at a wrong last row (lines 207-210). -/
def ScanRows.wrongLast (last_row_seen : Int) : Status :=
  Status.IOError ("Scan returned the wrong results. Expected last row to be " ++
    toString kUpperBound ++ " rows but got " ++ toString last_row_seen)

/-- How a loop of `ScanRows` ends: the function returns `s`, or the loop is left with the
current `next_row`; `seen` are the keys read and accepted so far. -/
inductive ScanExit
  | returned (s : Status) (seen : List Int)
  | left (next_row : Int) (seen : List Int)
  deriving DecidableEq, Repr

/-- The inner loop of `ScanRows` over one batch (lines 187-199). -/
def ScanRows.forRows : List RowResult → Int → List Int → ScanExit
  | [], next_row, seen => ScanExit.left next_row seen
  | (st, val) :: rest, next_row, seen =>
    if st ≠ Status.OK then ScanExit.returned st seen
    else if val ≠ next_row then ScanExit.returned (ScanRows.wrongKey next_row val) seen
    else ScanRows.forRows rest (wrap32 (next_row + 1)) (seen ++ [val])

/-- The outer loop of `ScanRows` (lines 185-201). -/
def ScanRows.whileMore : List BatchResult → Int → List Int → ScanExit
  | [], next_row, seen => ScanExit.left next_row seen
  | (st, results) :: more, next_row, seen =>
    if st ≠ Status.OK then ScanExit.returned st seen
    else
      match ScanRows.forRows results next_row seen with
      | ScanExit.returned s seen1 => ScanExit.returned s seen1
      | ScanExit.left next_row1 seen1 => ScanRows.whileMore more next_row1 seen1

/-- `ScanRows` (lines 165-213): the status returned and the keys read and accepted. -/
def ScanRows (table : KuduTable) : Status × List Int :=
  let scanner := table.scanner
  let s1 := scanner.AddConjunctPredicate ScanRows.lowerPredicate
  if s1 ≠ Status.OK then (s1, [])
  else
    let s2 := scanner.AddConjunctPredicate ScanRows.upperPredicate
    if s2 ≠ Status.OK then (s2, [])
    else if scanner.Open ≠ Status.OK then (scanner.Open, [])
    else
      match ScanRows.whileMore (scanner.batches ScanRows.predicates) kLowerBound [] with
      | ScanExit.returned s seen => (s, seen)
      | ScanExit.left next_row seen =>
        let last_row_seen := wrap32 (next_row - 1)
        if last_row_seen ≠ kUpperBound then (ScanRows.wrongLast last_row_seen, seen)
        else (Status.OK, seen)

/-! ## Notions the properties are stated with -/

/-- The list `lo, lo + 1, ..., hi`. -/
def keysFromTo (lo hi : Int) : List Int :=
  (List.range (hi + 1 - lo).toNat).map (fun (n : Nat) => lo + (n : Int))

/-- The `n` keys an `int` counter started at `next_row` runs through. -/
def consecutiveKeys : Nat → Int → List Int
  | 0, _ => []
  | n + 1, next_row => next_row :: consecutiveKeys n (wrap32 (next_row + 1))

/-- Batches of keys as a scanner delivers them when `NextBatch` and `GetInt32` succeed. -/
def okBatches (bs : List (List Int)) : List BatchResult :=
  bs.map (fun b => (Status.OK, b.map (fun k => (Status.OK, k))))

/-- The size of the key domain `[0, 1000)`: the constant of `CreateTable` (line 94), which
is also the number of rows `main` inserts (line 276). -/
def keyDomain : Int := 1000

/-- The ranges bounded by the split keys `keys` in the domain `[lo, hi)`. -/
def partitionRanges (lo hi : Int) (keys : List Int) : List (Int × Int) :=
  List.zip (lo :: keys) (keys ++ [hi])

/-- Modelled from the spec: a partially populated row is permitted when each column it sets
exists with the type of the value (here INT32) and each column it leaves unset is nullable
or has a default (sections 3 and 4.3); `Apply` of the session is not among the sources. -/
def rowValid (schema : KuduSchema) (assigned : List (String × Int)) : Bool :=
  assigned.all (fun a => schema.any (fun c => c.name == a.1 && decide (c.type = DataType.INT32)))
  && schema.all (fun c =>
    assigned.any (fun a => a.1 == c.name) || c.nullable || c.defaultValue.isSome)

/-- Whether each column a row leaves unset is nullable or has a default. -/
def KuduPartialRow.unsetAllowed (row : KuduPartialRow) : Bool :=
  (List.zip row.schema row.cells).all (fun cv =>
    cv.2.isSome || cv.1.nullable || cv.1.defaultValue.isSome)

/-- The rows a run of `InsertRows` applied. -/
def appliedRows : List SessionCall → List KuduPartialRow
  | [] => []
  | SessionCall.Apply row :: rest => row :: appliedRows rest
  | _ :: rest => appliedRows rest

/-- Whether the predicate holds of a row (INT32 columns). -/
def KuduPredicate.holds (p : KuduPredicate) (row : KuduPartialRow) : Bool :=
  match row.schema.findIdx? (fun c => c.name == p.column), p.value with
  | some idx, KuduValue.int32 v =>
    match row.int32At idx with
    | some x =>
      match p.op with
      | ComparisonOp.LESS_EQUAL => decide (x ≤ v)
      | ComparisonOp.GREATER_EQUAL => decide (v ≤ x)
      | ComparisonOp.EQUAL => decide (x = v)
    | none => false
  | _, _ => false

/-- Modelled from the spec: the keys a scan delivers, namely the keys of the stored rows
that satisfy every predicate of the conjunction, in ascending order (section 4.4); the
store and the scanner are not among the sources. -/
def scanSelect (stored : List KuduPartialRow) (preds : List KuduPredicate) : List Int :=
  List.insertionSort (fun a b => a ≤ b)
    ((stored.filter (fun row => preds.all (fun p => p.holds row))).filterMap
      (fun row => row.int32At 0))

/-- A session on which every call succeeds. -/
def okSession : KuduSession :=
  { SetFlushMode := Status.OK, Apply := fun _ => Status.OK, Flush := Status.OK,
    GetPendingErrors := ([], false), Close := Status.OK }

/-- A scanner that delivers the given batches of keys, every call succeeding. -/
def okScanner (bs : List (List Int)) : KuduScanner :=
  { AddConjunctPredicate := fun _ => Status.OK, Open := Status.OK,
    batches := fun _ => okBatches bs }

/-- A client that answers every request with OK. -/
def okClient : KuduClient :=
  { OpenTable := fun _ => Status.OK, Create := fun _ _ _ => Status.OK,
    Alter := fun _ _ => Status.OK }

/-- The split row `CreateTable` builds for the key `v`: a new row with column 0 set. -/
def splitRow (schema : KuduSchema) (v : Int) : KuduPartialRow :=
  { schema := schema,
    cells := (List.replicate schema.length none).set 0 (some (KuduValue.int32 v)) }

/-- The mapping of statuses as the specification words it (section 4.2, `Exists`), to be
compared with `DoesTableExist`: OK gives true, "not found" gives false with no error, any
other failure propagates and leaves the former content of `*exists`. -/
def existsMapping (s : Status) (exists_ : Option Bool) : Status × Option Bool :=
  match s with
  | Status.OK => (Status.OK, some true)
  | Status.Error Code.NotFound _ => (Status.OK, some false)
  | Status.Error c m => (Status.Error c m, exists_)

/-- The row `InsertRows` builds for `i` on the altered table (lines 133-137). -/
def insertedRow (i : Int) : KuduPartialRow :=
  { schema := alteredSchema,
    cells := [some (KuduValue.int32 i), some (KuduValue.int32 (wrap32 (i * 2))),
      some (KuduValue.int32 (wrap32 (i * 5))), none] }

/-- A table opened after `AlterTable`, with the given session and scanner. -/
def sampleTable (session : KuduSession) (scanner : KuduScanner) : KuduTable :=
  { schema := alteredSchema, session := session, scanner := scanner }

/-- A session whose `Flush` fails and which then reports the given pending errors. -/
def failingSession (flush : Status) (errors : List Status) (overflow : Bool) : KuduSession :=
  { SetFlushMode := Status.OK, Apply := fun _ => Status.OK, Flush := flush,
    GetPendingErrors := (errors, overflow), Close := Status.OK }

end YB

/-! # Properties -/

namespace YB

/-! ## 32-bit arithmetic -/

theorem wrap32_of_range {x : Int} (h1 : -2147483648 ≤ x) (h2 : x < 2147483648) :
    wrap32 x = x := by
  unfold wrap32; omega

theorem wrap32_range (x : Int) : -2147483648 ≤ wrap32 x ∧ wrap32 x < 2147483648 := by
  unfold wrap32; omega

/-! ## DoesTableExist -/

/-- C6: `DoesTableExist` maps the status `s` of `OpenTable` thus: OK gives `exists = true`
and OK; NotFound gives `exists = false` and OK; any other status is returned unchanged and
`*exists` keeps its former content.  Hence the result is non-OK exactly when `s` is neither
OK nor NotFound, and the boolean written depends on `s` alone, not on what `*exists` held
(two calls that see the same status write the same boolean). -/
theorem C6_DoesTableExist_status_mapping (client : KuduClient) (table_name : String)
    (e0 e1 : Option Bool) :
    DoesTableExist client table_name e0 = existsMapping (client.OpenTable table_name) e0 ∧
    (DoesTableExist client table_name e0 =
      if client.OpenTable table_name = Status.OK then (Status.OK, some true)
      else if (client.OpenTable table_name).IsNotFound = true then (Status.OK, some false)
      else (client.OpenTable table_name, e0)) ∧
    ((DoesTableExist client table_name e0).1 ≠ Status.OK ↔
      (client.OpenTable table_name ≠ Status.OK ∧
        (client.OpenTable table_name).IsNotFound = false)) ∧
    ((DoesTableExist client table_name e0).2 =
      if client.OpenTable table_name = Status.OK ∨
          (client.OpenTable table_name).IsNotFound = true
      then (DoesTableExist client table_name e1).2 else e0) := by
  unfold DoesTableExist existsMapping
  cases h : client.OpenTable table_name with
  | OK => simp [Status.ok, Status.IsNotFound]
  | Error c m => cases c <;> simp [Status.ok, Status.IsNotFound]

/-! ## CreateTable -/

theorem SetInt32_zero (schema : KuduSchema) (v : Int)
    (hcol : (schema.get? 0).map (fun c => c.type) = some DataType.INT32) :
    (NewRow schema).SetInt32 0 v = (Status.OK, splitRow schema v) := by
  unfold KuduPartialRow.SetInt32 NewRow splitRow
  cases schema with
  | nil => simp at hcol
  | cons c cs =>
    simp at hcol
    simp [hcol]

theorem CreateTable_loop_eq (schema : KuduSchema) (k inc : Int)
    (hcol : (schema.get? 0).map (fun c => c.type) = some DataType.INT32)
    (hk : k < 2147483648) (hinc : 0 ≤ inc) (hprod : k * inc ≤ 1000) :
    ∀ (m : Nat) (i : Int) (acc : List KuduPartialRow), 1 ≤ i → i + m = k →
      CreateTable.loop schema k inc m i acc =
        Outcome.ret (acc ++ (List.range m).map (fun (n : Nat) => splitRow schema ((i + (n : Int)) * inc)))
  | 0, i, acc, _, him => by
    have : ¬ i < k := by omega
    simp [CreateTable.loop, this]
  | m + 1, i, acc, hi, him => by
    have hlt : i < k := by omega
    have hb : i * inc ≤ k * inc := by nlinarith
    have hnn : 0 ≤ i * inc := by nlinarith
    have hw : wrap32 (i * inc) = i * inc := wrap32_of_range (by omega) (by omega)
    have hw1 : wrap32 (i + 1) = i + 1 := wrap32_of_range (by omega) (by omega)
    have ih := CreateTable_loop_eq schema k inc hcol hk hinc hprod m (i + 1)
      (acc ++ [splitRow schema (i * inc)]) (by omega) (by push_cast at him ⊢; omega)
    have hmap : (List.range (m + 1)).map (fun (n : Nat) => splitRow schema ((i + (n : Int)) * inc)) =
        splitRow schema (i * inc) ::
          (List.range m).map (fun (n : Nat) => splitRow schema ((i + 1 + (n : Int)) * inc)) := by
      rw [List.range_succ_eq_map, List.map_cons, List.map_map]
      congr 1
      · simp
      · apply List.map_congr_left
        intro n _
        simp only [Function.comp, Nat.succ_eq_add_one, Nat.cast_add, Nat.cast_one]
        congr 2
        ring
    simp only [CreateTable.loop, hlt, if_true, hw, hw1, SetInt32_zero schema _ hcol, ih, hmap,
      List.append_assoc, List.singleton_append]

theorem int32At_splitRow (schema : KuduSchema) (v : Int)
    (hcol : (schema.get? 0).map (fun c => c.type) = some DataType.INT32) :
    (splitRow schema v).int32At 0 = some v := by
  cases schema with
  | nil => simp at hcol
  | cons c cs => simp [splitRow, KuduPartialRow.int32At, List.replicate_succ]

theorem tdiv_increment {k : Int} (hk : 0 < k) :
    0 ≤ Int.tdiv 1000 k ∧ k * Int.tdiv 1000 k ≤ 1000 ∧ Int.tdiv 1000 k ≤ 1000 := by
  have h1 : Int.tdiv 1000 k = 1000 / k := Int.tdiv_eq_ediv (by norm_num) (le_of_lt hk)
  have h2 : 0 ≤ (1000 : Int) / k := Int.ediv_nonneg (by norm_num) (le_of_lt hk)
  have h3 : k * ((1000 : Int) / k) ≤ 1000 := Int.mul_ediv_self_le (by omega)
  rw [h1]
  refine ⟨h2, h3, ?_⟩
  nlinarith

theorem CreateTable_splits_eq (schema : KuduSchema) (k : Int)
    (hcol : (schema.get? 0).map (fun c => c.type) = some DataType.INT32)
    (hk : 0 < k) (hmax : k < 2147483648) :
    CreateTable.splits schema k = Outcome.ret
      ((List.range (k - 1).toNat).map
        (fun (n : Nat) => splitRow schema ((1 + (n : Int)) * Int.tdiv 1000 k))) := by
  obtain ⟨h0, hprod, hle⟩ := tdiv_increment hk
  have hw : wrap32 (Int.tdiv 1000 k) = Int.tdiv 1000 k :=
    wrap32_of_range (by omega) (by omega)
  have hne : k ≠ 0 := by omega
  unfold CreateTable.splits
  simp only [hne, if_false, hw]
  rw [CreateTable_loop_eq schema k _ hcol hmax h0 hprod (k - 1).toNat 1 [] (by omega)
    (by omega)]
  simp

theorem splitKeys_map_splitRow (schema : KuduSchema) (f : Nat → Int) (l : List Nat)
    (hcol : (schema.get? 0).map (fun c => c.type) = some DataType.INT32) :
    splitKeys (l.map (fun n => splitRow schema (f n))) = l.map f := by
  induction l with
  | nil => rfl
  | cons a l ih =>
    unfold splitKeys at ih ⊢
    simp only [List.map_cons, List.filterMap_cons, int32At_splitRow schema _ hcol, ih]

/-- C3: for a partition count `0 < k` (an `int`) and a schema whose column 0 is INT32, the
split list `CreateTable` builds and passes to the table creator has exactly `k - 1` entries,
and entry `i` (`i = 1 .. k-1`) is a new row with column 0 set to `i * (1000 div k)`, `div`
being the truncating division; for `k = 10` the split keys are 100, 200, ..., 900. -/
theorem C3_CreateTable_split_list (schema : KuduSchema) (k : Int)
    (hcol : (schema.get? 0).map (fun c => c.type) = some DataType.INT32)
    (hk : 0 < k) (hmax : k < 2147483648) :
    ∃ splits : List KuduPartialRow,
      CreateTable.splits schema k = Outcome.ret splits ∧
      (∀ (client : KuduClient) (name : String),
        CreateTable client name schema k = Outcome.ret (client.Create name schema splits)) ∧
      (splits.length : Int) = k - 1 ∧
      (∀ i : Int, 1 ≤ i → i < k →
        splits.get? (i - 1).toNat = some (splitRow schema (i * Int.tdiv 1000 k)) ∧
        (splitKeys splits).get? (i - 1).toNat = some (i * Int.tdiv 1000 k)) ∧
      (k = 10 → splitKeys splits = [100, 200, 300, 400, 500, 600, 700, 800, 900]) := by
  refine ⟨_, CreateTable_splits_eq schema k hcol hk hmax, ?_, ?_, ?_, ?_⟩
  · intro client name
    simp only [CreateTable, CreateTable_splits_eq schema k hcol hk hmax]
  · simp only [List.length_map, List.length_range]
    omega
  · intro i hi hik
    have hlt : (i - 1).toNat < (k - 1).toNat := by omega
    have hcast : (1 + (((i - 1).toNat : Nat) : Int)) = i := by omega
    rw [splitKeys_map_splitRow schema (fun n => (1 + (n : Int)) * Int.tdiv 1000 k) _ hcol]
    simp only [List.get?_eq_getElem?, List.getElem?_map, List.getElem?_range hlt,
      Option.map_some', hcast, and_self]
  · intro h10
    subst h10
    rw [splitKeys_map_splitRow schema (fun n => (1 + (n : Int)) * Int.tdiv 1000 10) _ hcol]
    decide

/-- Witness of C3: the call `main` makes, `CreateTable(client, name, schema, 10)`. -/
theorem C3_CreateTable_split_list_witness :
    ∃ splits : List KuduPartialRow,
      CreateTable.splits sampleSchema 10 = Outcome.ret splits ∧
      (∀ (client : KuduClient) (name : String),
        CreateTable client name sampleSchema 10 =
          Outcome.ret (client.Create name sampleSchema splits)) ∧
      (splits.length : Int) = 10 - 1 ∧
      (∀ i : Int, 1 ≤ i → i < 10 →
        splits.get? (i - 1).toNat = some (splitRow sampleSchema (i * Int.tdiv 1000 10)) ∧
        (splitKeys splits).get? (i - 1).toNat = some (i * Int.tdiv 1000 10)) ∧
      ((10 : Int) = 10 → splitKeys splits = [100, 200, 300, 400, 500, 600, 700, 800, 900]) :=
  C3_CreateTable_split_list sampleSchema 10 (by decide) (by decide) (by decide)

/-- C4 fails as stated: for `k = -1` the increment `1000 / -1` is evaluated, no split key is
generated, the create request is submitted with an empty split list and its status (here OK)
is returned; no InvalidArgument is produced. -/
theorem C4_counterexample_negative_count :
    CreateTable.splits sampleSchema (-1) = Outcome.ret [] ∧
    CreateTable okClient "test_table" sampleSchema (-1) = Outcome.ret Status.OK ∧
    ¬ ∃ m, CreateTable okClient "test_table" sampleSchema (-1) =
      Outcome.ret (Status.InvalidArgument m) := by
  have h : CreateTable okClient "test_table" sampleSchema (-1) = Outcome.ret Status.OK := by
    decide
  refine ⟨by decide, h, ?_⟩
  rintro ⟨m, hm⟩
  rw [h] at hm
  simp [Status.InvalidArgument] at hm

/-- C4 as amended: for every partition count `k < 0`, `CreateTable` generates no split key,
submits the create request with an empty split list and returns the status of that request
unchanged. -/
theorem C4_CreateTable_negative_count (client : KuduClient) (name : String)
    (schema : KuduSchema) (k : Int) (hk : k < 0) :
    CreateTable.splits schema k = Outcome.ret [] ∧
    CreateTable client name schema k = Outcome.ret (client.Create name schema []) := by
  have hne : k ≠ 0 := by omega
  have h0 : (k - 1).toNat = 0 := by omega
  have hlt : ¬ (1 : Int) < k := by omega
  have hs : CreateTable.splits schema k = Outcome.ret [] := by
    simp [CreateTable.splits, hne, h0, CreateTable.loop, hlt]
  exact ⟨hs, by simp [CreateTable, hs]⟩

/-- Witness of C4 as amended, at `k = -3`. -/
theorem C4_CreateTable_negative_count_witness :
    (-3 : Int) < 0 ∧
    CreateTable.splits sampleSchema (-3) = Outcome.ret [] ∧
    CreateTable okClient "test_table" sampleSchema (-3) =
      Outcome.ret (okClient.Create "test_table" sampleSchema []) :=
  ⟨by decide, C4_CreateTable_negative_count okClient "test_table" sampleSchema (-3) (by decide)⟩

/-- For `k = 0` the increment `1000 / 0` is evaluated: the behaviour is undefined. -/
theorem CreateTable_zero_count (client : KuduClient) (name : String) (schema : KuduSchema) :
    CreateTable client name schema 0 = Outcome.undefined := by
  simp [CreateTable, CreateTable.splits]

/-! ### Ranges bounded by split keys -/

theorem zip_bounds_lt : ∀ (l : List Int) (a b : Int),
    List.Chain' (fun x y => x < y) (a :: (l ++ [b])) →
    ∀ r ∈ List.zip (a :: l) (l ++ [b]), r.1 < r.2
  | [], a, b, h, r, hr => by
    simp at hr
    subst hr
    simpa using h
  | c :: l, a, b, h, r, hr => by
    simp only [List.cons_append, List.zip_cons_cons, List.mem_cons] at hr
    rw [List.cons_append, List.chain'_cons] at h
    rcases hr with hr | hr
    · subst hr
      exact h.1
    · exact zip_bounds_lt l c b h.2 r hr

theorem zip_bounds_ge : ∀ (l : List Int) (a b : Int),
    List.Chain' (fun x y => x < y) (a :: (l ++ [b])) →
    ∀ r ∈ List.zip (a :: l) (l ++ [b]), a ≤ r.1
  | [], a, b, _, r, hr => by
    simp at hr
    subst hr
    simp
  | c :: l, a, b, h, r, hr => by
    simp only [List.cons_append, List.zip_cons_cons, List.mem_cons] at hr
    rw [List.cons_append, List.chain'_cons] at h
    rcases hr with hr | hr
    · subst hr
      simp
    · have := zip_bounds_ge l c b h.2 r hr
      omega

theorem zip_bounds_cover : ∀ (l : List Int) (a b x : Int),
    List.Chain' (fun x y => x < y) (a :: (l ++ [b])) → a ≤ x → x < b →
    ∃! r : Int × Int, r ∈ List.zip (a :: l) (l ++ [b]) ∧ r.1 ≤ x ∧ x < r.2
  | [], a, b, x, _, hax, hxb => by
    refine ⟨(a, b), by simp [hax, hxb], ?_⟩
    rintro r ⟨hr, _⟩
    simpa using hr
  | c :: l, a, b, x, h, hax, hxb => by
    rw [List.cons_append, List.chain'_cons] at h
    by_cases hxc : x < c
    · refine ⟨(a, c), by simp [hax, hxc], ?_⟩
      rintro r ⟨hr, hr1, _⟩
      simp only [List.cons_append, List.zip_cons_cons, List.mem_cons] at hr
      rcases hr with hr | hr
      · exact hr
      · have := zip_bounds_ge l c b h.2 r hr
        omega
    · obtain ⟨r, ⟨hr, hr1, hr2⟩, huniq⟩ := zip_bounds_cover l c b x h.2 (by omega) hxb
      refine ⟨r, ⟨by simp [hr], hr1, hr2⟩, ?_⟩
      rintro q ⟨hq, hq1, hq2⟩
      simp only [List.cons_append, List.zip_cons_cons, List.mem_cons] at hq
      rcases hq with hq | hq
      · subst hq
        simp at hq2
        omega
      · exact huniq q ⟨hq, hq1, hq2⟩

theorem splitKeys_chain (k : Int) (hk : 0 < k) (hk2 : k ≤ 1000) :
    List.Chain' (fun x y : Int => x < y)
      (0 :: ((List.range (k - 1).toNat).map
        (fun (n : Nat) => (1 + (n : Int)) * Int.tdiv 1000 k) ++ [1000])) := by
  obtain ⟨_, hprod, _⟩ := tdiv_increment hk
  have h1 : Int.tdiv 1000 k = 1000 / k := Int.tdiv_eq_ediv (by norm_num) (le_of_lt hk)
  have hpos : 1 ≤ Int.tdiv 1000 k := by
    rw [h1]
    exact Int.le_ediv_of_mul_le hk (by omega)
  rw [List.chain'_iff_pairwise]
  rw [List.pairwise_cons, List.pairwise_append]
  refine ⟨?_, ?_, by simp, ?_⟩
  · intro y hy
    simp only [List.mem_append, List.mem_map, List.mem_range, List.mem_singleton] at hy
    rcases hy with ⟨n, _, rfl⟩ | rfl
    · nlinarith
    · norm_num
  · apply List.Pairwise.map _ _ (List.pairwise_lt_range _)
    intro a b hab
    have : (a : Int) < b := by exact_mod_cast hab
    nlinarith
  · intro y hy z hz
    simp only [List.mem_map, List.mem_range] at hy
    simp only [List.mem_singleton] at hz
    obtain ⟨n, hn, rfl⟩ := hy
    subst hz
    have hn1 : (1 + (n : Int)) ≤ k - 1 := by omega
    nlinarith

theorem not_pairwise_lt_replicate (n : Nat) (v : Int) :
    ¬ List.Pairwise (fun x y => x < y) (List.replicate (n + 2) v) := by
  simp [List.replicate_succ]

theorem not_nodup_replicate (n : Nat) (v : Int) :
    ¬ (List.replicate (n + 2) v).Nodup := by
  simp [List.replicate_succ]

/-- C2 fails as stated: for `k = 1001` the increment `1000 / 1001` is 0 and the 1000 split
keys generated are all 0, neither strictly increasing nor free of repetition. -/
theorem C2_counterexample_count_1001 :
    ∃ splits : List KuduPartialRow,
      CreateTable.splits sampleSchema 1001 = Outcome.ret splits ∧
      splitKeys splits = List.replicate 1000 0 ∧
      ¬ List.Pairwise (fun x y => x < y) (splitKeys splits) ∧
      ¬ (splitKeys splits).Nodup := by
  have hcol : (sampleSchema.get? 0).map (fun c => c.type) = some DataType.INT32 := by decide
  have hkeys : splitKeys ((List.range ((1001 : Int) - 1).toNat).map
      (fun (n : Nat) => splitRow sampleSchema ((1 + (n : Int)) * Int.tdiv 1000 1001))) =
      List.replicate 1000 0 := by
    rw [splitKeys_map_splitRow sampleSchema
      (fun n => (1 + (n : Int)) * Int.tdiv 1000 1001) _ hcol]
    have h0 : Int.tdiv 1000 1001 = 0 := by decide
    have h1 : ((1001 : Int) - 1).toNat = 1000 := by decide
    rw [h0, h1]
    simp only [mul_zero]
    rw [List.eq_replicate_iff]
    refine ⟨by simp only [List.length_map, List.length_range], ?_⟩
    intro b hb
    simp only [List.mem_map] at hb
    obtain ⟨_, _, rfl⟩ := hb
    rfl
  refine ⟨_, CreateTable_splits_eq sampleSchema 1001 hcol (by decide) (by decide), hkeys, ?_, ?_⟩
  · rw [hkeys]
    exact not_pairwise_lt_replicate 998 0
  · rw [hkeys]
    exact not_nodup_replicate 998 0

/-- C2 as amended: for every partition count `0 < k <= 1000` and a schema whose column 0 is
INT32, every split row generated by `CreateTable` carries a key, the split keys are
strictly increasing and without repetition, and they bound `k` ranges of the key domain
`[0, 1000)` that are non-empty and such that every key of the domain lies in exactly one
range (no overlap, no gap). -/
theorem C2_CreateTable_split_keys_increasing (schema : KuduSchema) (k : Int)
    (hcol : (schema.get? 0).map (fun c => c.type) = some DataType.INT32)
    (hk : 0 < k) (hk2 : k ≤ 1000) :
    ∃ splits : List KuduPartialRow,
      CreateTable.splits schema k = Outcome.ret splits ∧
      (splitKeys splits).length = splits.length ∧
      List.Pairwise (fun x y => x < y) (splitKeys splits) ∧
      (splitKeys splits).Nodup ∧
      ((partitionRanges 0 keyDomain (splitKeys splits)).length : Int) = k ∧
      (∀ r ∈ partitionRanges 0 keyDomain (splitKeys splits), r.1 < r.2) ∧
      (∀ x : Int, 0 ≤ x → x < keyDomain →
        ∃! r : Int × Int, r ∈ partitionRanges 0 keyDomain (splitKeys splits) ∧
          r.1 ≤ x ∧ x < r.2) := by
  have hchain := splitKeys_chain k hk hk2
  have hkeys := splitKeys_map_splitRow schema
    (fun n => (1 + (n : Int)) * Int.tdiv 1000 k) (List.range (k - 1).toNat) hcol
  have hpw : List.Pairwise (fun x y : Int => x < y)
      ((List.range (k - 1).toNat).map (fun (n : Nat) => (1 + (n : Int)) * Int.tdiv 1000 k)) := by
    have h := List.chain'_iff_pairwise.mp hchain
    rw [List.pairwise_cons, List.pairwise_append] at h
    exact h.2.1
  refine ⟨_, CreateTable_splits_eq schema k hcol hk (by omega), ?_, ?_, ?_, ?_, ?_, ?_⟩
  · rw [hkeys]; simp
  · rw [hkeys]; exact hpw
  · rw [hkeys]
    exact hpw.imp (fun h => ne_of_lt h)
  · rw [hkeys]
    simp only [partitionRanges, List.length_zip, List.length_cons, List.length_append,
      List.length_map, List.length_range, List.length_singleton, List.length_nil]
    omega
  · rw [hkeys]
    exact zip_bounds_lt _ 0 1000 hchain
  · intro x hx0 hx1
    rw [hkeys]
    exact zip_bounds_cover _ 0 1000 x hchain hx0 hx1

/-- Witness of C2 as amended: the call `main` makes, with `k = 10`. -/
theorem C2_CreateTable_split_keys_increasing_witness :
    ∃ splits : List KuduPartialRow,
      CreateTable.splits sampleSchema 10 = Outcome.ret splits ∧
      (splitKeys splits).length = splits.length ∧
      List.Pairwise (fun x y => x < y) (splitKeys splits) ∧
      (splitKeys splits).Nodup ∧
      ((partitionRanges 0 keyDomain (splitKeys splits)).length : Int) = 10 ∧
      (∀ r ∈ partitionRanges 0 keyDomain (splitKeys splits), r.1 < r.2) ∧
      (∀ x : Int, 0 ≤ x → x < keyDomain →
        ∃! r : Int × Int, r ∈ partitionRanges 0 keyDomain (splitKeys splits) ∧
          r.1 ≤ x ∧ x < r.2) :=
  C2_CreateTable_split_keys_increasing sampleSchema 10 (by decide) (by decide) (by decide)

/-! ## Schema, AlterTable and the rows of InsertRows -/

/-- C9: the schema `S` obtained from `CreateSchema` by the three operations of `AlterTable`
has the columns key, integer_val, non_null_with_default and the nullable BOOL another_val.
For every `i`, each column the row of `InsertRows` sets exists in `S` with type INT32 (the
three `SetInt32` succeed) and the only column left unset, another_val, is nullable, so the
row is valid against `S`; against the unaltered schema it is not valid (`integer_val` does
not exist there and the `SetInt32` on it fails). -/
theorem C9_inserted_row_valid_after_alter (i : Int) :
    CreateSchema = Outcome.ret sampleSchema ∧
    applyAlter sampleSchema AlterTable.steps = some alteredSchema ∧
    alteredSchema.map (fun c => (c.name, c.type, c.nullable)) =
      [("key", DataType.INT32, false), ("integer_val", DataType.INT32, false),
       ("non_null_with_default", DataType.INT32, false), ("another_val", DataType.BOOL, true)] ∧
    rowValid alteredSchema (InsertRows.assignments i) = true ∧
    setAll (NewRow alteredSchema) (InsertRows.assignments i) = Outcome.ret (insertedRow i) ∧
    (insertedRow i).unsetAllowed = true ∧
    rowValid sampleSchema (InsertRows.assignments i) = false ∧
    setAll (NewRow sampleSchema) (InsertRows.assignments i) =
      Outcome.fatal (Status.NotFound "No such column") :=
  ⟨by decide, by decide, by decide, rfl, rfl, rfl, rfl, rfl⟩

/-! ## InsertRows -/

theorem setAll_altered (i : Int) :
    setAll (NewRow alteredSchema) (InsertRows.assignments i) = Outcome.ret (insertedRow i) :=
  rfl

theorem InsertRows_loop_eq (table : KuduTable) (num_rows : Int)
    (hschema : table.schema = alteredSchema)
    (hApply : ∀ row, table.session.Apply row = Status.OK)
    (hmax : num_rows < 2147483648) :
    ∀ (m : Nat) (i : Int) (calls : List SessionCall), 0 ≤ i → m = (num_rows - i).toNat →
      InsertRows.loop table num_rows m i calls =
        { calls := calls ++ (List.range m).map
            (fun (n : Nat) => SessionCall.Apply (insertedRow (i + (n : Int)))),
          result := Outcome.ret () }
  | 0, i, calls, _, hm => by
    have : ¬ i < num_rows := by omega
    simp [InsertRows.loop, this]
  | m + 1, i, calls, hi, hm => by
    have hlt : i < num_rows := by omega
    have hw1 : wrap32 (i + 1) = i + 1 := wrap32_of_range (by omega) (by omega)
    have ih := InsertRows_loop_eq table num_rows hschema hApply hmax m (i + 1)
      (calls ++ [SessionCall.Apply (insertedRow i)]) (by omega) (by omega)
    have hmap : (List.range (m + 1)).map
          (fun (n : Nat) => SessionCall.Apply (insertedRow (i + (n : Int)))) =
        SessionCall.Apply (insertedRow i) ::
          (List.range m).map
            (fun (n : Nat) => SessionCall.Apply (insertedRow (i + 1 + (n : Int)))) := by
      rw [List.range_succ_eq_map, List.map_cons, List.map_map]
      congr 1
      · simp
      · apply List.map_congr_left
        intro n _
        simp only [Function.comp, Nat.succ_eq_add_one, Nat.cast_add, Nat.cast_one]
        congr 2
        ring
    simp only [InsertRows.loop, hlt, if_true, hschema, setAll_altered, hApply, hw1, ih, hmap,
      List.append_assoc, List.singleton_append]

theorem InsertRows_eq (table : KuduTable) (num_rows : Int)
    (hschema : table.schema = alteredSchema)
    (hmode : table.session.SetFlushMode = Status.OK)
    (hApply : ∀ row, table.session.Apply row = Status.OK)
    (hmax : num_rows < 2147483648) :
    InsertRows table num_rows =
      if table.session.Flush.ok then
        { calls := [SessionCall.SetFlushMode, SessionCall.SetTimeoutMillis 5000] ++
            (List.range num_rows.toNat).map
              (fun (n : Nat) => SessionCall.Apply (insertedRow (0 + (n : Int)))) ++
            [SessionCall.Flush],
          result := Outcome.ret table.session.Flush }
      else
        match InsertRows.pendingStatus table.session.GetPendingErrors.1
            table.session.GetPendingErrors.2 with
        | Outcome.ret s1 =>
          if s1.ok then
            { calls := [SessionCall.SetFlushMode, SessionCall.SetTimeoutMillis 5000] ++
                (List.range num_rows.toNat).map
                  (fun (n : Nat) => SessionCall.Apply (insertedRow (0 + (n : Int)))) ++
                [SessionCall.Flush, SessionCall.FlushAsync, SessionCall.GetPendingErrors] ++
                [SessionCall.Close],
              result := Outcome.ret table.session.Close }
          else
            { calls := [SessionCall.SetFlushMode, SessionCall.SetTimeoutMillis 5000] ++
                (List.range num_rows.toNat).map
                  (fun (n : Nat) => SessionCall.Apply (insertedRow (0 + (n : Int)))) ++
                [SessionCall.Flush, SessionCall.FlushAsync, SessionCall.GetPendingErrors],
              result := Outcome.ret s1 }
        | Outcome.fatal s1 =>
          { calls := [SessionCall.SetFlushMode, SessionCall.SetTimeoutMillis 5000] ++
              (List.range num_rows.toNat).map
                (fun (n : Nat) => SessionCall.Apply (insertedRow (0 + (n : Int)))) ++
              [SessionCall.Flush, SessionCall.FlushAsync, SessionCall.GetPendingErrors],
            result := Outcome.fatal s1 }
        | Outcome.undefined =>
          { calls := [SessionCall.SetFlushMode, SessionCall.SetTimeoutMillis 5000] ++
              (List.range num_rows.toNat).map
                (fun (n : Nat) => SessionCall.Apply (insertedRow (0 + (n : Int)))) ++
              [SessionCall.Flush, SessionCall.FlushAsync, SessionCall.GetPendingErrors],
            result := Outcome.undefined }
        | Outcome.diverge =>
          { calls := [SessionCall.SetFlushMode, SessionCall.SetTimeoutMillis 5000] ++
              (List.range num_rows.toNat).map
                (fun (n : Nat) => SessionCall.Apply (insertedRow (0 + (n : Int)))) ++
              [SessionCall.Flush, SessionCall.FlushAsync, SessionCall.GetPendingErrors],
            result := Outcome.diverge } := by
  have hloop := InsertRows_loop_eq table num_rows hschema hApply hmax num_rows.toNat 0
    [SessionCall.SetFlushMode, SessionCall.SetTimeoutMillis 5000] (le_refl 0) (by omega)
  unfold InsertRows
  simp only [hmode, hloop]

theorem mem_applies_ne_close (l : List Nat) (f : Nat → KuduPartialRow) :
    SessionCall.Close ∉ l.map (fun n => SessionCall.Apply (f n)) := by
  simp

/-- C5: on the altered table, with `SetFlushMode` and every `Apply` succeeding and `Flush`
returning a non-OK status, `InsertRows` returns, for every result `(errors, overflow)` of
`GetPendingErrors`: the IOError "Overflowed pending errors in session" when `overflow` is
true, whatever `errors` holds; and, when `overflow` is false and `errors` starts with a
non-OK status, exactly that first status. -/
theorem C5_InsertRows_status_after_failed_flush (table : KuduTable) (num_rows : Int)
    (hschema : table.schema = alteredSchema)
    (hmode : table.session.SetFlushMode = Status.OK)
    (hApply : ∀ row, table.session.Apply row = Status.OK)
    (hmax : num_rows < 2147483648)
    (hflush : table.session.Flush ≠ Status.OK) :
    (table.session.GetPendingErrors.2 = true →
      (InsertRows table num_rows).result =
        Outcome.ret (Status.IOError "Overflowed pending errors in session") ∧
      (Status.IOError "Overflowed pending errors in session").IsIOError = true) ∧
    (table.session.GetPendingErrors.2 = false →
      ∀ e es, table.session.GetPendingErrors.1 = e :: es → e ≠ Status.OK →
        (InsertRows table num_rows).result = Outcome.ret e) := by
  have hok : table.session.Flush.ok = false := by
    cases h : table.session.Flush with
    | OK => exact absurd h hflush
    | Error c m => rfl
  rw [InsertRows_eq table num_rows hschema hmode hApply hmax]
  simp only [hok, Bool.false_eq_true, if_false]
  constructor
  · intro hov
    simp [InsertRows.pendingStatus, hov, Status.IOError, Status.ok, Status.IsIOError]
  · intro hov e es herr he
    have heok : e.ok = false := by
      cases e with
      | OK => exact absurd rfl he
      | Error c m => rfl
    simp [InsertRows.pendingStatus, hov, herr, heok]

/-- Witness of C5: a thousand rows, a failed `Flush`; once with the overflow flag set and
once with two retained errors. -/
theorem C5_InsertRows_status_after_failed_flush_witness :
    (InsertRows (sampleTable (failingSession (Status.IOError "Some errors occurred")
        [Status.Error Code.AlreadyExists "key already present"] true) (okScanner [])) 1000).result
      = Outcome.ret (Status.IOError "Overflowed pending errors in session") ∧
    (InsertRows (sampleTable (failingSession (Status.IOError "Some errors occurred")
        [Status.Error Code.AlreadyExists "key already present",
         Status.Error Code.TimedOut "timed out"] false) (okScanner [])) 1000).result
      = Outcome.ret (Status.Error Code.AlreadyExists "key already present") :=
  ⟨((C5_InsertRows_status_after_failed_flush
      (sampleTable (failingSession (Status.IOError "Some errors occurred")
        [Status.Error Code.AlreadyExists "key already present"] true) (okScanner [])) 1000
      rfl rfl (fun _ => rfl) (by decide) (by decide)).1 rfl).1,
   (C5_InsertRows_status_after_failed_flush
      (sampleTable (failingSession (Status.IOError "Some errors occurred")
        [Status.Error Code.AlreadyExists "key already present",
         Status.Error Code.TimedOut "timed out"] false) (okScanner [])) 1000
      rfl rfl (fun _ => rfl) (by decide) (by decide)).2 rfl _ _ rfl (by decide)⟩

/-- C7 fails on the code: when every call succeeds, `InsertRows(table, 1000)` returns OK
right after `Flush` (line 142); the calls it made on the session are `SetFlushMode`,
`SetTimeoutMillis`, a thousand `Apply` and `Flush`, and `Close` is not among them. -/
theorem C7_InsertRows_returns_without_Close :
    (InsertRows (sampleTable okSession (okScanner [])) 1000).result = Outcome.ret Status.OK ∧
    (∃ before, (InsertRows (sampleTable okSession (okScanner [])) 1000).calls =
      before ++ [SessionCall.Flush]) ∧
    (InsertRows (sampleTable okSession (okScanner [])) 1000).calls.length = 1003 ∧
    SessionCall.Close ∉ (InsertRows (sampleTable okSession (okScanner [])) 1000).calls := by
  rw [InsertRows_eq (sampleTable okSession (okScanner [])) 1000 rfl rfl (fun _ => rfl)
    (by decide)]
  have hok : (sampleTable okSession (okScanner [])).session.Flush.ok = true := rfl
  simp only [hok, if_true]
  refine ⟨rfl, ⟨_, rfl⟩, by simp, ?_⟩
  simp only [List.mem_append, List.mem_cons, List.mem_singleton, not_or]
  exact ⟨⟨⟨by simp, by simp, by simp⟩, mem_applies_ne_close _ _⟩, by simp, by simp⟩

/-- The path of `InsertRows` that does close the session: `Flush` fails, no overflow, and
the first pending error carries an OK status; then `Close` is the last call and its status
is returned (line 162). -/
theorem InsertRows_close_path :
    (InsertRows (sampleTable (failingSession (Status.IOError "Some errors occurred")
        [Status.OK] false) (okScanner [])) 1000).result = Outcome.ret Status.OK ∧
    (∃ before, (InsertRows (sampleTable (failingSession (Status.IOError "Some errors occurred")
        [Status.OK] false) (okScanner [])) 1000).calls = before ++ [SessionCall.Close]) := by
  rw [InsertRows_eq (sampleTable (failingSession (Status.IOError "Some errors occurred")
        [Status.OK] false) (okScanner [])) 1000 rfl rfl (fun _ => rfl) (by decide)]
  have hok : (sampleTable (failingSession (Status.IOError "Some errors occurred")
        [Status.OK] false) (okScanner [])).session.Flush.ok = false := rfl
  simp only [hok, Bool.false_eq_true, if_false]
  exact ⟨rfl, ⟨_, rfl⟩⟩

/-- C10 fails on the code: when `Flush` fails and `GetPendingErrors` gives an empty list
with `overflow = false`, `InsertRows` evaluates `errors.front()` on the empty vector (line
154): the behaviour is undefined. -/
theorem C10_InsertRows_front_of_empty_errors :
    InsertRows.pendingStatus [] false = Outcome.undefined ∧
    (InsertRows (sampleTable (failingSession (Status.IOError "Some errors occurred")
        [] false) (okScanner [])) 1000).result = Outcome.undefined := by
  rw [InsertRows_eq (sampleTable (failingSession (Status.IOError "Some errors occurred")
        [] false) (okScanner [])) 1000 rfl rfl (fun _ => rfl) (by decide)]
  exact ⟨rfl, rfl⟩

/-! ## ScanRows -/

theorem forRows_append : ∀ (l1 l2 : List RowResult) (next_row : Int) (seen : List Int),
    ScanRows.forRows (l1 ++ l2) next_row seen =
      match ScanRows.forRows l1 next_row seen with
      | ScanExit.returned s seen1 => ScanExit.returned s seen1
      | ScanExit.left next_row1 seen1 => ScanRows.forRows l2 next_row1 seen1
  | [], l2, next_row, seen => by simp [ScanRows.forRows]
  | (st, val) :: l1, l2, next_row, seen => by
    simp only [List.cons_append, ScanRows.forRows]
    by_cases h1 : st ≠ Status.OK
    · simp [h1]
    · by_cases h2 : val ≠ next_row
      · simp [h1, h2]
      · simp only [h1, h2, if_false]
        exact forRows_append l1 l2 _ _

theorem whileMore_okBatches : ∀ (bs : List (List Int)) (next_row : Int) (seen : List Int),
    ScanRows.whileMore (okBatches bs) next_row seen =
      ScanRows.forRows (bs.flatten.map (fun k => (Status.OK, k))) next_row seen
  | [], next_row, seen => by simp [okBatches, ScanRows.whileMore, ScanRows.forRows]
  | b :: bs, next_row, seen => by
    have ih := fun n s => whileMore_okBatches bs n s
    simp only [okBatches, List.map_cons, ScanRows.whileMore, List.flatten_cons,
      List.map_append, forRows_append] at ih ⊢
    simp only [ne_eq, not_true_eq_false, if_false]
    cases ScanRows.forRows (b.map (fun k => (Status.OK, k))) next_row seen with
    | returned s seen1 => rfl
    | left n1 seen1 => exact ih n1 seen1

theorem ScanRows_eq (table : KuduTable) (bs : List (List Int))
    (hadd : ∀ p, table.scanner.AddConjunctPredicate p = Status.OK)
    (hopen : table.scanner.Open = Status.OK)
    (hb : table.scanner.batches ScanRows.predicates = okBatches bs) :
    ScanRows table =
      match ScanRows.forRows (bs.flatten.map (fun k => (Status.OK, k))) kLowerBound [] with
      | ScanExit.returned s seen => (s, seen)
      | ScanExit.left next_row seen =>
        if wrap32 (next_row - 1) ≠ kUpperBound then
          (ScanRows.wrongLast (wrap32 (next_row - 1)), seen)
        else (Status.OK, seen) := by
  unfold ScanRows
  simp only [hadd, hopen, hb, whileMore_okBatches, ne_eq, not_true_eq_false, if_false]

theorem ScanRows_of_left (table : KuduTable) (bs : List (List Int))
    (hadd : ∀ p, table.scanner.AddConjunctPredicate p = Status.OK)
    (hopen : table.scanner.Open = Status.OK)
    (hb : table.scanner.batches ScanRows.predicates = okBatches bs)
    (next_row : Int) (seen : List Int)
    (h : ScanRows.forRows (bs.flatten.map (fun k => (Status.OK, k))) 5 [] =
      ScanExit.left next_row seen) :
    ScanRows table =
      if wrap32 (next_row - 1) ≠ 600 then (ScanRows.wrongLast (wrap32 (next_row - 1)), seen)
      else (Status.OK, seen) := by
  have hk : kLowerBound = 5 := rfl
  rw [ScanRows_eq table bs hadd hopen hb, hk, h]
  rfl

theorem ScanRows_of_returned (table : KuduTable) (bs : List (List Int))
    (hadd : ∀ p, table.scanner.AddConjunctPredicate p = Status.OK)
    (hopen : table.scanner.Open = Status.OK)
    (hb : table.scanner.batches ScanRows.predicates = okBatches bs)
    (s : Status) (seen : List Int)
    (h : ScanRows.forRows (bs.flatten.map (fun k => (Status.OK, k))) 5 [] =
      ScanExit.returned s seen) :
    ScanRows table = (s, seen) := by
  have hk : kLowerBound = 5 := rfl
  rw [ScanRows_eq table bs hadd hopen hb, hk, h]

theorem length_consecutiveKeys : ∀ (n : Nat) (next_row : Int),
    (consecutiveKeys n next_row).length = n
  | 0, _ => rfl
  | n + 1, next_row => by
    simp [consecutiveKeys, length_consecutiveKeys n]

theorem wrap32_add_succ (x : Int) (n : Nat) :
    wrap32 (wrap32 (x + 1) + (n : Int)) = wrap32 (x + ((n + 1 : Nat) : Int)) := by
  unfold wrap32; push_cast; omega

theorem forRows_consecutive : ∀ (n : Nat) (next_row : Int) (seen : List Int),
    wrap32 next_row = next_row →
    ScanRows.forRows ((consecutiveKeys n next_row).map (fun k => (Status.OK, k)))
      next_row seen =
      ScanExit.left (wrap32 (next_row + (n : Int))) (seen ++ consecutiveKeys n next_row)
  | 0, next_row, seen, h => by
    simp [consecutiveKeys, ScanRows.forRows, h]
  | n + 1, next_row, seen, _ => by
    have hr : wrap32 (wrap32 (next_row + 1)) = wrap32 (next_row + 1) := by
      unfold wrap32; omega
    have ih := forRows_consecutive n (wrap32 (next_row + 1)) (seen ++ [next_row]) hr
    simp only [consecutiveKeys, List.map_cons, ScanRows.forRows, ne_eq, not_true_eq_false,
      if_false, ih, wrap32_add_succ, List.append_assoc, List.singleton_append]

theorem wrongKey_isIOError (a b : Int) : (ScanRows.wrongKey a b).IsIOError = true := rfl

theorem wrongLast_isIOError (a : Int) : (ScanRows.wrongLast a).IsIOError = true := rfl

/-- The inner loop on keys read without error: either every key is the expected one, or
the loop returns at the first key that is not. -/
theorem forRows_cases : ∀ (keys : List Int) (next_row : Int) (seen : List Int),
    wrap32 next_row = next_row →
    (keys = consecutiveKeys keys.length next_row ∧
      ScanRows.forRows (keys.map (fun k => (Status.OK, k))) next_row seen =
        ScanExit.left (wrap32 (next_row + (keys.length : Int))) (seen ++ keys)) ∨
    (∃ pre v rest, keys = pre ++ v :: rest ∧ pre = consecutiveKeys pre.length next_row ∧
      v ≠ wrap32 (next_row + (pre.length : Int)) ∧
      ScanRows.forRows (keys.map (fun k => (Status.OK, k))) next_row seen =
        ScanExit.returned (ScanRows.wrongKey (wrap32 (next_row + (pre.length : Int))) v)
          (seen ++ pre))
  | [], next_row, seen, h => by
    left
    simp [consecutiveKeys, ScanRows.forRows, h]
  | v :: keys, next_row, seen, h => by
    by_cases hv : v = next_row
    · subst hv
      have hr : wrap32 (wrap32 (v + 1)) = wrap32 (v + 1) := by
        unfold wrap32; omega
      rcases forRows_cases keys (wrap32 (v + 1)) (seen ++ [v]) hr with
        ⟨hk, hf⟩ | ⟨pre, w, rest, hk, hpre, hw, hf⟩
      · left
        refine ⟨?_, ?_⟩
        · simp only [List.length_cons, consecutiveKeys]
          rw [← hk]
        · simp only [List.map_cons, ScanRows.forRows, ne_eq, not_true_eq_false, if_false, hf,
            List.length_cons, wrap32_add_succ, List.append_assoc, List.singleton_append]
      · right
        refine ⟨v :: pre, w, rest, by simp [hk], ?_, ?_, ?_⟩
        · simp only [List.length_cons, consecutiveKeys]
          rw [← hpre]
        · simpa only [List.length_cons, wrap32_add_succ] using hw
        · simp only [List.map_cons, ScanRows.forRows, ne_eq, not_true_eq_false, if_false, hf,
            List.length_cons, wrap32_add_succ, List.append_assoc, List.singleton_append]
    · right
      refine ⟨[], v, keys, rfl, rfl, ?_, ?_⟩
      · simpa [h] using hv
      · simp [ScanRows.forRows, hv, h]

theorem forRows_mismatch (pre rest : List Int) (v next_row : Int) (seen : List Int)
    (h : wrap32 next_row = next_row) (hpre : pre = consecutiveKeys pre.length next_row)
    (hv : v ≠ wrap32 (next_row + (pre.length : Int))) :
    ScanRows.forRows ((pre ++ v :: rest).map (fun k => (Status.OK, k))) next_row seen =
      ScanExit.returned (ScanRows.wrongKey (wrap32 (next_row + (pre.length : Int))) v)
        (seen ++ pre) := by
  have hf := forRows_consecutive pre.length next_row seen h
  rw [← hpre] at hf
  rw [List.map_append, forRows_append, hf]
  simp [ScanRows.forRows, hv]

theorem keysFromTo_eq_consecutiveKeys : keysFromTo 5 600 = consecutiveKeys 596 5 := by
  set_option maxRecDepth 100000 in decide

/-- C8 fails as stated: with 32-bit `int` arithmetic, the single batch of the 2^32 + 596
keys 5, 6, ..., 2^31 - 1, -2^31, ..., 600 (`next_row` wraps once) makes `ScanRows` return
OK, although the keys delivered are not the list 5, ..., 600. -/
theorem C8_counterexample_counter_wraps :
    (ScanRows (sampleTable okSession (okScanner [consecutiveKeys 4294967892 5]))).1 =
      Status.OK ∧
    (consecutiveKeys 4294967892 5).length = 4294967892 ∧
    [consecutiveKeys 4294967892 5].flatten ≠ keysFromTo 5 600 := by
  have hfl : [consecutiveKeys 4294967892 5].flatten = consecutiveKeys 4294967892 5 := by
    rw [List.flatten_cons, List.flatten_nil, List.append_nil]
  refine ⟨?_, length_consecutiveKeys _ _, ?_⟩
  · rw [ScanRows_eq (sampleTable okSession (okScanner [consecutiveKeys 4294967892 5]))
      [consecutiveKeys 4294967892 5] (fun _ => rfl) rfl rfl, hfl]
    have hk : kLowerBound = 5 := rfl
    rw [hk, forRows_consecutive 4294967892 5 [] (by decide)]
    have hw : wrap32 (wrap32 (5 + ((4294967892 : Nat) : Int)) - 1) = kUpperBound := by decide
    simp only [hw, ne_eq, not_true_eq_false, if_false]
  · intro h
    have hlen := congrArg List.length h
    rw [hfl, length_consecutiveKeys, keysFromTo_eq_consecutiveKeys,
      length_consecutiveKeys] at hlen
    omega

/-- C8 as amended (`int` arithmetic is taken modulo 2^32): when `AddConjunctPredicate`,
`Open`, `NextBatch` and `GetInt32` all return OK, for every finite sequence of batches of
keys (empty batches and the empty sequence included) holding fewer than 2^32 + 596 keys in
all, `ScanRows` returns OK if and only if the batches put end to end are exactly the list
5, 6, ..., 600; otherwise it returns an IOError: when some key differs from the expected
next key, the IOError naming that key, at the first such key and having accepted exactly
the keys before it; when no key does, the IOError of the last-row check, after the last
batch. -/
theorem C8_ScanRows_checks_keys (table : KuduTable) (bs : List (List Int))
    (hadd : ∀ p, table.scanner.AddConjunctPredicate p = Status.OK)
    (hopen : table.scanner.Open = Status.OK)
    (hb : table.scanner.batches ScanRows.predicates = okBatches bs)
    (hlen : bs.flatten.length < 4294967892) :
    ((ScanRows table).1 = Status.OK ↔ bs.flatten = keysFromTo 5 600) ∧
    ((ScanRows table).1 ≠ Status.OK → (ScanRows table).1.IsIOError = true) ∧
    (∀ pre v rest, bs.flatten = pre ++ v :: rest → pre = consecutiveKeys pre.length 5 →
      v ≠ wrap32 (5 + (pre.length : Int)) →
      ScanRows table = (ScanRows.wrongKey (wrap32 (5 + (pre.length : Int))) v, pre)) ∧
    (bs.flatten = consecutiveKeys bs.flatten.length 5 → bs.flatten ≠ keysFromTo 5 600 →
      ScanRows table =
        (ScanRows.wrongLast (wrap32 (wrap32 (5 + (bs.flatten.length : Int)) - 1)),
          bs.flatten)) := by
  have h5 : wrap32 5 = 5 := by decide
  have hleft := ScanRows_of_left table bs hadd hopen hb
  have hret := ScanRows_of_returned table bs hadd hopen hb
  refine ⟨⟨?_, ?_⟩, ?_, ?_, ?_⟩
  · intro hOK
    rcases forRows_cases bs.flatten 5 [] h5 with ⟨hc, hf⟩ | ⟨pre, v, rest, _, _, _, hf⟩
    · have heq := hleft _ _ hf
      by_cases hw : wrap32 (wrap32 (5 + (bs.flatten.length : Int)) - 1) ≠ 600
      · rw [if_pos hw] at heq
        rw [heq] at hOK
        simp [ScanRows.wrongLast, Status.IOError] at hOK
      · have hw2 : wrap32 (wrap32 (5 + (bs.flatten.length : Int)) - 1) = 600 := by
          simpa using hw
        have hn : bs.flatten.length = 596 := by
          unfold wrap32 at hw2
          omega
        rw [hn] at hc
        rw [hc, keysFromTo_eq_consecutiveKeys]
    · rw [hret _ _ hf] at hOK
      simp [ScanRows.wrongKey, Status.IOError] at hOK
  · intro hL
    have hf := forRows_consecutive 596 5 [] h5
    rw [← keysFromTo_eq_consecutiveKeys, ← hL] at hf
    rw [hleft _ _ hf]
    have hw : ¬ wrap32 (wrap32 (5 + ((596 : Nat) : Int)) - 1) ≠ 600 := by decide
    rw [if_neg hw]
  · intro hne
    rcases forRows_cases bs.flatten 5 [] h5 with ⟨_, hf⟩ | ⟨pre, v, rest, _, _, _, hf⟩
    · have heq := hleft _ _ hf
      by_cases hw : wrap32 (wrap32 (5 + (bs.flatten.length : Int)) - 1) ≠ 600
      · rw [if_pos hw] at heq
        rw [heq]
        exact wrongLast_isIOError _
      · rw [if_neg hw] at heq
        rw [heq] at hne
        exact absurd rfl hne
    · rw [hret _ _ hf]
      exact wrongKey_isIOError _ _
  · intro pre v rest hL hpre hv
    have hf := forRows_mismatch pre rest v 5 [] h5 hpre hv
    rw [← hL] at hf
    rw [hret _ _ hf, List.nil_append]
  · intro hc hne
    have hf := forRows_consecutive bs.flatten.length 5 [] h5
    rw [← hc] at hf
    have hw : wrap32 (wrap32 (5 + (bs.flatten.length : Int)) - 1) ≠ 600 := by
      intro hw2
      have hn : bs.flatten.length = 596 := by
        unfold wrap32 at hw2
        omega
      rw [hn] at hc
      exact hne (by rw [hc, keysFromTo_eq_consecutiveKeys])
    rw [hleft _ _ hf, if_pos hw, List.nil_append]

/-- Witness of C8 as amended: the keys 5, ..., 600 cut into two batches around an empty
one. -/
theorem C8_ScanRows_checks_keys_witness :
    ((ScanRows (sampleTable okSession
        (okScanner [keysFromTo 5 300, [], keysFromTo 301 600]))).1 = Status.OK ↔
      [keysFromTo 5 300, [], keysFromTo 301 600].flatten = keysFromTo 5 600) ∧
    ((ScanRows (sampleTable okSession
        (okScanner [keysFromTo 5 300, [], keysFromTo 301 600]))).1 ≠ Status.OK →
      (ScanRows (sampleTable okSession
        (okScanner [keysFromTo 5 300, [], keysFromTo 301 600]))).1.IsIOError = true) ∧
    (∀ pre v rest, [keysFromTo 5 300, [], keysFromTo 301 600].flatten = pre ++ v :: rest →
      pre = consecutiveKeys pre.length 5 →
      v ≠ wrap32 (5 + (pre.length : Int)) →
      ScanRows (sampleTable okSession
        (okScanner [keysFromTo 5 300, [], keysFromTo 301 600])) =
        (ScanRows.wrongKey (wrap32 (5 + (pre.length : Int))) v, pre)) ∧
    ([keysFromTo 5 300, [], keysFromTo 301 600].flatten =
        consecutiveKeys [keysFromTo 5 300, [], keysFromTo 301 600].flatten.length 5 →
      [keysFromTo 5 300, [], keysFromTo 301 600].flatten ≠ keysFromTo 5 600 →
      ScanRows (sampleTable okSession
        (okScanner [keysFromTo 5 300, [], keysFromTo 301 600])) =
        (ScanRows.wrongLast (wrap32 (wrap32
          (5 + ([keysFromTo 5 300, [], keysFromTo 301 600].flatten.length : Int)) - 1)),
          [keysFromTo 5 300, [], keysFromTo 301 600].flatten)) :=
  C8_ScanRows_checks_keys
    (sampleTable okSession (okScanner [keysFromTo 5 300, [], keysFromTo 301 600]))
    [keysFromTo 5 300, [], keysFromTo 301 600] (fun _ => rfl) rfl rfl
    (by simp [keysFromTo])

/-! ## InsertRows followed by ScanRows -/

theorem appliedRows_append : ∀ (l1 l2 : List SessionCall),
    appliedRows (l1 ++ l2) = appliedRows l1 ++ appliedRows l2
  | [], l2 => rfl
  | c :: l1, l2 => by
    cases c <;> simp [appliedRows, appliedRows_append l1 l2]

theorem appliedRows_map_Apply (f : Nat → KuduPartialRow) : ∀ (l : List Nat),
    appliedRows (l.map (fun n => SessionCall.Apply (f n))) = l.map f
  | [] => rfl
  | a :: l => by
    simp [appliedRows, appliedRows_map_Apply f l]

theorem appliedRows_InsertRows (table : KuduTable)
    (hschema : table.schema = alteredSchema)
    (hmode : table.session.SetFlushMode = Status.OK)
    (hApply : ∀ row, table.session.Apply row = Status.OK)
    (hflush : table.session.Flush = Status.OK) :
    (InsertRows table 1000).result = Outcome.ret Status.OK ∧
    appliedRows (InsertRows table 1000).calls =
      (List.range 1000).map (fun (n : Nat) => insertedRow (0 + (n : Int))) := by
  have hok : table.session.Flush.ok = true := by rw [hflush]; rfl
  rw [InsertRows_eq table 1000 hschema hmode hApply (by decide), if_pos hok]
  refine ⟨?_, ?_⟩
  · show Outcome.ret table.session.Flush = Outcome.ret Status.OK
    rw [hflush]
  · have h1000 : ((1000 : Int)).toNat = 1000 := by decide
    show appliedRows ([SessionCall.SetFlushMode, SessionCall.SetTimeoutMillis 5000] ++
      (List.range ((1000 : Int)).toNat).map
        (fun (n : Nat) => SessionCall.Apply (insertedRow (0 + (n : Int)))) ++
      [SessionCall.Flush]) = _
    rw [appliedRows_append, appliedRows_append, h1000,
      appliedRows_map_Apply (fun n => insertedRow (0 + (n : Int)))]
    simp only [appliedRows, List.nil_append, List.append_nil]

theorem sorted_keysFromTo (lo hi : Int) : List.Sorted (fun a b => a ≤ b) (keysFromTo lo hi) := by
  unfold keysFromTo List.Sorted
  apply List.Pairwise.map _ _ (List.pairwise_lt_range _)
  intro a b hab
  have : (a : Int) < b := by exact_mod_cast hab
  omega

theorem filterMap_some_eq_map (g : Nat → Int) : ∀ (l : List Nat),
    l.filterMap (fun (n : Nat) => some (g n)) = l.map g
  | [] => rfl
  | a :: l => by
    simp only [List.filterMap_cons, List.map_cons, filterMap_some_eq_map g l]

theorem filter_inserted_selected : ∀ (l : List Nat),
    (l.map (fun (n : Nat) => insertedRow (0 + (n : Int)))).filter
        (fun row => ScanRows.predicates.all (fun p => p.holds row)) =
      (l.filter (fun (n : Nat) =>
        decide ((5 : Int) ≤ 0 + (n : Int)) && (decide (0 + (n : Int) ≤ 600) && true))).map
        (fun (n : Nat) => insertedRow (0 + (n : Int)))
  | [] => rfl
  | a :: l => by
    have hholds : ScanRows.predicates.all (fun p => p.holds (insertedRow (0 + (a : Int)))) =
        (decide ((5 : Int) ≤ 0 + (a : Int)) && (decide (0 + (a : Int) ≤ 600) && true)) := rfl
    simp only [List.map_cons, List.filter_cons, hholds, filter_inserted_selected l]
    split <;> rfl

theorem keys_inserted (l : List Nat) :
    (l.map (fun (n : Nat) => insertedRow (0 + (n : Int)))).filterMap
      (fun row => row.int32At 0) = l.map (fun (n : Nat) => 0 + (n : Int)) := by
  rw [List.filterMap_map]
  exact filterMap_some_eq_map (fun n => 0 + (n : Int)) l

theorem scanSelect_inserted :
    scanSelect ((List.range 1000).map (fun (n : Nat) => insertedRow (0 + (n : Int))))
      ScanRows.predicates = keysFromTo 5 600 := by
  have hkeys : (List.filter (fun (n : Nat) =>
        decide ((5 : Int) ≤ 0 + (n : Int)) && (decide (0 + (n : Int) ≤ 600) && true))
        (List.range 1000)).map (fun (n : Nat) => 0 + (n : Int)) = keysFromTo 5 600 := by
    set_option maxRecDepth 100000 in decide
  unfold scanSelect
  rw [filter_inserted_selected, keys_inserted, hkeys]
  exact List.Sorted.insertionSort_eq (sorted_keysFromTo 5 600)

theorem stored_keys_inserted :
    ((List.range 1000).map (fun (n : Nat) => insertedRow (0 + (n : Int)))).filterMap
      (fun row => row.int32At 0) = keysFromTo 0 999 := by
  rw [keys_inserted]
  rfl

/-- C1: let the store hold exactly the rows applied by `InsertRows(table, 1000)` on the
altered table, `SetFlushMode`, every `Apply` and `Flush` succeeding (so the keys stored are
0, ..., 999), and let the scanner succeed at every call and deliver, for the two predicates
`ScanRows` adds, the stored keys that satisfy both, in ascending order, cut into the
batches `bs` in any way (empty batches allowed).  Then `InsertRows` returns OK and
`ScanRows` returns OK after accepting exactly the keys 5, 6, ..., 600, in order, 596 rows
in all. -/
theorem C1_insert_then_scan (table : KuduTable) (bs : List (List Int))
    (hschema : table.schema = alteredSchema)
    (hmode : table.session.SetFlushMode = Status.OK)
    (hApply : ∀ row, table.session.Apply row = Status.OK)
    (hflush : table.session.Flush = Status.OK)
    (hadd : ∀ p, table.scanner.AddConjunctPredicate p = Status.OK)
    (hopen : table.scanner.Open = Status.OK)
    (hb : table.scanner.batches ScanRows.predicates = okBatches bs)
    (hfl : bs.flatten =
      scanSelect (appliedRows (InsertRows table 1000).calls) ScanRows.predicates) :
    (InsertRows table 1000).result = Outcome.ret Status.OK ∧
    (appliedRows (InsertRows table 1000).calls).filterMap (fun row => row.int32At 0) =
      keysFromTo 0 999 ∧
    ScanRows table = (Status.OK, keysFromTo 5 600) ∧
    (ScanRows table).2.length = 596 := by
  obtain ⟨hres, hrows⟩ := appliedRows_InsertRows table hschema hmode hApply hflush
  rw [hrows, scanSelect_inserted] at hfl
  have hf := forRows_consecutive 596 5 [] (by decide)
  rw [← keysFromTo_eq_consecutiveKeys, ← hfl] at hf
  have hscanrows : ScanRows table = (Status.OK, keysFromTo 5 600) := by
    rw [ScanRows_of_left table bs hadd hopen hb _ _ hf]
    have hw : ¬ wrap32 (wrap32 (5 + ((596 : Nat) : Int)) - 1) ≠ 600 := by decide
    rw [if_neg hw, hfl, List.nil_append]
  refine ⟨hres, ?_, hscanrows, ?_⟩
  · rw [hrows, stored_keys_inserted]
  · rw [hscanrows]
    simp [keysFromTo]

theorem flatten_three_batches :
    [keysFromTo 5 104, [], keysFromTo 105 600].flatten = keysFromTo 5 600 := by
  set_option maxRecDepth 100000 in decide

/-- Witness of C1: the table of `main` with every call succeeding, the selected keys being
delivered as a batch of a hundred keys, an empty batch and a batch with the rest. -/
theorem C1_insert_then_scan_witness :
    (InsertRows (sampleTable okSession
      (okScanner [keysFromTo 5 104, [], keysFromTo 105 600])) 1000).result =
      Outcome.ret Status.OK ∧
    (appliedRows (InsertRows (sampleTable okSession
      (okScanner [keysFromTo 5 104, [], keysFromTo 105 600])) 1000).calls).filterMap
        (fun row => row.int32At 0) = keysFromTo 0 999 ∧
    ScanRows (sampleTable okSession (okScanner [keysFromTo 5 104, [], keysFromTo 105 600])) =
      (Status.OK, keysFromTo 5 600) ∧
    (ScanRows (sampleTable okSession
      (okScanner [keysFromTo 5 104, [], keysFromTo 105 600]))).2.length = 596 :=
  C1_insert_then_scan
    (sampleTable okSession (okScanner [keysFromTo 5 104, [], keysFromTo 105 600]))
    [keysFromTo 5 104, [], keysFromTo 105 600] rfl rfl (fun _ => rfl) rfl (fun _ => rfl) rfl rfl
    (by
      rw [(appliedRows_InsertRows (sampleTable okSession
        (okScanner [keysFromTo 5 104, [], keysFromTo 105 600])) rfl rfl (fun _ => rfl) rfl).2,
        scanSelect_inserted]
      exact flatten_three_batches)

end YB
